import Mathlib

/-!
Verification of the ProManLite EPCM project-controls scorecard (src/database.py and
src/app.py) against its natural-language specification.

The SQLite rows of database.py are embedded as Lean structures: REAL columns as `ℚ`
(the arithmetic on them is plain field arithmetic), TEXT columns as `String` (SQLite
compares TEXT by byte order, which on the ISO dates used here is the lexicographic
`String` order), INTEGER 0/1 flags as `Bool`, NULLable columns as `Option`. Tables are
embedded as lists of rows, and the database-access functions as pure functions on those
lists; operations that can raise are embedded as `Option`/`Except`-returning functions.
-/

namespace ProManLite

/-- A row of the `deliverables` table (database.py schema). Columns not touched by any
claim (planned/actual dates, parent id, created/modified stamps) are omitted. -/
structure Deliverable where
  id : Nat
  project_id : Nat
  wbs_code : String
  deliverable_name : String
  discipline : String
  function : String
  budget_hours : ℚ
  status : String
  physical_progress : ℚ
  manual_progress_override : Bool
  earned_hours : ℚ
  forecast_to_complete : ℚ
deriving DecidableEq

/-- Lexicographic strict order on character lists by codepoint, the order SQLite's
memcmp TEXT comparison induces on the ASCII ISO dates stored in the TEXT columns. -/
def strLtB : List Char → List Char → Bool
  | [], [] => false
  | [], _ :: _ => true
  | _ :: _, [] => false
  | a :: as, b :: bs => if a < b then true else if b < a then false else strLtB as bs

/-- SQLite TEXT `<`. -/
def strLt (s t : String) : Bool := strLtB s.data t.data

/-- SQLite TEXT `<=`. -/
def strLe (s t : String) : Bool := !(strLt t s)

/-- SQL `SUM(col)` over a result set: NULL (`none`) when the set is empty, otherwise
the sum. -/
def sqlSum (xs : List ℚ) : Option ℚ :=
  if xs.isEmpty then none else some xs.sum

/-- Python truthiness coalescing `x if x else 0` as applied to a SQL `SUM` result:
`None` is falsy and yields 0, and a number yields its own value (`0.0` is also falsy,
but the else-branch then returns the same value 0), so the coalescing is exactly
`Option.getD 0`. -/
def pyOr0 (x : Option ℚ) : ℚ := x.getD 0

/-- The SQL `CASE` expression shared verbatim by `DeliverableDB.calculate_earned_value`
and the `earned` query of `ProjectDB.get_project_summary`:
`CASE WHEN manual_progress_override=1 THEN earned_hours ELSE budget_hours * physical_progress / 100.0 END`. -/
def earnedCase (d : Deliverable) : ℚ :=
  if d.manual_progress_override then d.earned_hours
  else d.budget_hours * d.physical_progress / 100

/-- The spec's earned-value contract, written from the spec's words (§4.2):
`effective_earned(d) = d.earned_hours if d.manual_progress_override else
d.budget_hours * d.physical_progress / 100.0`. Kept separate from `earnedCase` so the
code expression can be compared against the spec's. -/
def effective_earned_spec (d : Deliverable) : ℚ :=
  if d.manual_progress_override then d.earned_hours
  else d.budget_hours * d.physical_progress / 100

/-- `DeliverableDB.calculate_earned_value`: sums the `CASE` expression over the
project's deliverable rows; `df['earned'].sum() if not df.empty else 0` makes an empty
result set yield 0. -/
def calculate_earned_value (delivs : List Deliverable) (pid : Nat) : ℚ :=
  let rows := delivs.filter (fun d => d.project_id == pid)
  if rows.isEmpty then 0 else (rows.map earnedCase).sum

/-- The `earned` query of `ProjectDB.get_project_summary`: `GROUP BY function` with
`SUM` of the same `CASE` expression; only functions that occur among the project's rows
appear as groups (no zero-fill). -/
def summary_earned (delivs : List Deliverable) (pid : Nat) : List (String × ℚ) :=
  let rows := delivs.filter (fun d => d.project_id == pid)
  ((rows.map (fun d => d.function)).dedup).map
    (fun f => (f, ((rows.filter (fun d => d.function == f)).map earnedCase).sum))

/-- A row of the `manning_forecast` table. `week_ending` is an ISO `YYYY-MM-DD` TEXT
column. -/
structure ManningForecastEntry where
  id : Nat
  project_id : Nat
  person_name : String
  position : String
  discipline : String
  function : String
  week_ending : String
  forecast_hours : ℚ
  hourly_rate : ℚ
  forecast_cost : ℚ
deriving DecidableEq

/-- The dictionary returned by `ManningDB.get_forecast_reconciliation`. -/
structure Reconciliation where
  deliverable_ftc : ℚ
  manning_ftc : ℚ
  variance : ℚ
deriving DecidableEq

/-- `ManningDB.get_forecast_reconciliation`: `deliverable_ftc` is
`SUM(forecast_to_complete)` over the project's deliverables; `manning_ftc` is
`SUM(forecast_hours)` over the project's manning rows with `week_ending > date('now')`
(`today` stands for `date('now')`, a `YYYY-MM-DD` string, and the comparison is SQLite
TEXT order); each `SUM` is coalesced through Python `x if x else 0`; `variance` is their
difference. -/
def get_forecast_reconciliation (delivs : List Deliverable)
    (manning : List ManningForecastEntry) (pid : Nat) (today : String) : Reconciliation :=
  let deliv_ftc := sqlSum ((delivs.filter (fun d => d.project_id == pid)).map
    (fun d => d.forecast_to_complete))
  let manning_ftc := sqlSum ((manning.filter
    (fun m => m.project_id == pid && strLt today m.week_ending)).map
    (fun m => m.forecast_hours))
  { deliverable_ftc := pyOr0 deliv_ftc, manning_ftc := pyOr0 manning_ftc,
    variance := pyOr0 deliv_ftc - pyOr0 manning_ftc }

/-- `page_forecast_recon` (app.py): the reconciliation page warns "Reconcile before
reporting" exactly when `abs(variance) > 20`, and reports "Forecasts are aligned"
otherwise. -/
def requires_reconciliation (r : Reconciliation) : Bool :=
  decide (20 < |r.variance|)

/-- Proleptic-Gregorian day number (days since 1970-01-01) of a civil date, the
standard days-from-civil computation; it grounds the concrete calendar dates the spec's
week-ending examples use. All intermediate divisions act on nonnegative values, where
Lean's Int division agrees with the usual algorithm. -/
def daysFromCivil (y m d : Int) : Int :=
  let y' := if m ≤ 2 then y - 1 else y
  let era := (if 0 ≤ y' then y' else y' - 399) / 400
  let yoe := y' - era * 400
  let mp := (m + 9) % 12
  let doy := (153 * mp + 2) / 5 + d - 1
  let doe := yoe * 365 + yoe / 4 - yoe / 100 + doy
  era * 146097 + doe - 719468

/-- Python's `date.weekday()` on a day number: Monday = 0 … Sunday = 6
(1970-01-01 was a Thursday, weekday 3). -/
def pyWeekday (d : Int) : Int := (d + 3) % 7

/-- `calculate_week_ending` (app.py): `days = (5 - date.weekday()) % 7`, bumped to 7
when 0, added to the date. -/
def calculate_week_ending (d : Int) : Int :=
  let days := (5 - pyWeekday d) % 7
  let days' := if days = 0 then 7 else days
  d + days'

/-- Python `str.split(sep)` for a single-character separator, on the character list of
the string: splitting never drops a group, and the empty string yields one empty group,
exactly as in Python. -/
def pySplitChars (sep : Char) : List Char → List (List Char)
  | [] => [[]]
  | c :: cs =>
    if c = sep then [] :: pySplitChars sep cs
    else
      match pySplitChars sep cs with
      | [] => [[c]]
      | g :: gs => (c :: g) :: gs

/-- Python `str.split(sep)` as the importer uses it. -/
def pySplit (s : String) (sep : Char) : List String :=
  (pySplitChars sep s.data).map String.mk

/-- Python `str.strip()` restricted to its whitespace default. -/
def pyStrip (l : List Char) : List Char :=
  ((l.dropWhile Char.isWhitespace).reverse.dropWhile Char.isWhitespace).reverse

/-- Reads a run of decimal digits as a natural number, the digit loop shared by the
`int()`/`float()` models below. -/
def digitsToNat (l : List Char) : Nat :=
  l.foldl (fun acc c => 10 * acc + (c.toNat - 48)) 0

/-- Splits an optional leading `+`/`-` sign off a stripped literal. -/
def pySign (l : List Char) : Int × List Char :=
  match l with
  | '-' :: rest => (-1, rest)
  | '+' :: rest => (1, rest)
  | _ => (1, l)

/-- Python `int(s)` on the strings the timesheet importer meets: surrounding whitespace
stripped, an optional sign, then one or more decimal digits; anything else raises
`ValueError`, modelled as `none`. (Python's underscore digit grouping and non-ASCII
digits are not modelled; no claim exercises them.) -/
def pyInt (s : String) : Option Int :=
  let signed := pySign (pyStrip s.data)
  if !signed.2.isEmpty && signed.2.all Char.isDigit then
    some (signed.1 * (digitsToNat signed.2 : Int))
  else none

/-- Python `float(s)` on plain decimal literals: surrounding whitespace stripped, an
optional sign, digits with at most one decimal point and at least one digit overall;
anything else raises `ValueError`, modelled as `none`. (Exponent forms, `inf`/`nan`
spellings and underscore grouping are not modelled; no claim exercises them.) -/
def pyFloat (s : String) : Option ℚ :=
  let signed := pySign (pyStrip s.data)
  match pySplitChars '.' signed.2 with
  | [ip] =>
    if !ip.isEmpty && ip.all Char.isDigit then
      some ((signed.1 : ℚ) * (digitsToNat ip : ℚ))
    else none
  | [ip, fp] =>
    if (!ip.isEmpty || !fp.isEmpty) && ip.all Char.isDigit && fp.all Char.isDigit then
      some ((signed.1 : ℚ) *
        ((digitsToNat ip : ℚ) + (digitsToNat fp : ℚ) / (10 : ℚ) ^ fp.length))
    else none
  | _ => none

/-- The duration value handed to `parse_time_to_hours` (app.py): a pandas cell that is
either missing (`NaN`, where `pd.isna` is true), a Python number, or a string. -/
inductive TimeValue where
  | nan : TimeValue
  | num : ℚ → TimeValue
  | str : String → TimeValue

/-- `parse_time_to_hours` (app.py): missing or empty input gives 0.0; numeric input is
returned as decimal hours; a string is split on `:` — three parts parse as
`H + M/60 + S/3600`, two as `H + M/60`, any other shape falls back to `float(s)` — and
any exception along the way (a non-integer part, an unparseable float) is swallowed by
the bare `except` and gives 0.0. -/
def parse_time_to_hours : TimeValue → ℚ
  | .nan => 0
  | .num q => q
  | .str s =>
    if s = "" then 0
    else
      match pySplit s ':' with
      | [a, b, c] =>
        match pyInt a, pyInt b, pyInt c with
        | some h, some m, some sec => (h : ℚ) + (m : ℚ) / 60 + (sec : ℚ) / 3600
        | _, _, _ => 0
      | [a, b] =>
        match pyInt a, pyInt b with
        | some h, some m => (h : ℚ) + (m : ℚ) / 60
        | _, _ => 0
      | _ => (pyFloat s).getD 0

/-- A row of the `rate_schedule` table; `end_date` is NULLable. -/
structure RateRow where
  id : Nat
  position : String
  rate : ℚ
  effective_date : String
  end_date : Option String
deriving DecidableEq

/-- The WHERE clause of `MasterDataDB.get_rate_for_position`:
`position='{position}' AND effective_date <= '{as_of_date}' AND
(end_date IS NULL OR end_date > '{as_of_date}')`. -/
def rateMatches (position as_of_date : String) (r : RateRow) : Bool :=
  r.position == position && strLe r.effective_date as_of_date &&
    (match r.end_date with
     | none => true
     | some e => strLt as_of_date e)

/-- `ORDER BY effective_date DESC LIMIT 1`: keeps a row whose `effective_date` is
maximal among the matches (SQLite leaves the choice among equal dates unspecified; the
model keeps the earliest such row in table order). -/
def pickLatest : List RateRow → Option RateRow
  | [] => none
  | r :: rs =>
    match pickLatest rs with
    | none => some r
    | some b => if strLt r.effective_date b.effective_date then some b else some r

/-- `MasterDataDB.get_rate_for_position`: the selected row's rate, defaulting to 170.0
when no row matches. -/
def get_rate_for_position (table : List RateRow) (position : String)
    (as_of_date : String) : ℚ :=
  match pickLatest (table.filter (rateMatches position as_of_date)) with
  | some r => r.rate
  | none => 170

/-- A row of the `purchase_orders` table; `invoiced_to_date`, `accrued_work_done` and
`remaining_commitment` default to 0 in the schema. -/
structure PurchaseOrder where
  id : Nat
  project_id : Nat
  po_number : String
  supplier : String
  description : String
  category : String
  commitment_value : ℚ
  invoiced_to_date : ℚ
  accrued_work_done : ℚ
  remaining_commitment : ℚ
  status : String
deriving DecidableEq

/-- A row of the `invoices` table. -/
structure Invoice where
  id : Nat
  po_id : Nat
  invoice_number : String
  invoice_date : String
  amount : ℚ
  payment_status : String
deriving DecidableEq

/-- The slice of database state the Commitment Tracker reads and writes. -/
structure POState where
  purchase_orders : List PurchaseOrder
  invoices : List Invoice
deriving DecidableEq

/-- The `SELECT SUM(amount) FROM invoices WHERE po_id=...` query. -/
def invoiceTotal (invoices : List Invoice) (po_id : Nat) : Option ℚ :=
  sqlSum ((invoices.filter (fun i => i.po_id == po_id)).map (fun i => i.amount))

/-- `PODB.create_po`: inserts the PO row; `invoiced_to_date`, `accrued_work_done` and
`remaining_commitment` are not in the INSERT column list and take the schema default 0. -/
def create_po (s : POState) (id project_id : Nat)
    (po_number supplier description category : String) (commitment_value : ℚ) : POState :=
  { s with purchase_orders := s.purchase_orders ++
      [{ id := id, project_id := project_id, po_number := po_number, supplier := supplier,
         description := description, category := category, commitment_value := commitment_value,
         invoiced_to_date := 0, accrued_work_done := 0, remaining_commitment := 0,
         status := "issued" }] }

/-- `InvoiceDB.create_invoice`: appends the invoice row, re-aggregates `SUM(amount)`
over the PO's invoices (necessarily non-NULL here, the new invoice included) and stores
it in the PO's `invoiced_to_date`; the UPDATE touches no other column, in particular
not `remaining_commitment`. -/
def create_invoice (s : POState) (id po_id : Nat) (invoice_number invoice_date : String)
    (amount : ℚ) : POState :=
  let invoices' := s.invoices ++
    [{ id := id, po_id := po_id, invoice_number := invoice_number,
       invoice_date := invoice_date, amount := amount, payment_status := "received" }]
  let total := (invoiceTotal invoices' po_id).getD 0
  { purchase_orders := s.purchase_orders.map (fun po =>
      if po.id == po_id then { po with invoiced_to_date := total } else po),
    invoices := invoices' }

/-- `PODB.update_po_accrual`: re-reads `SUM(amount)` (coalesced through `x if x else 0`),
reads the PO row's `commitment_value` (`.iloc[0]` raises when the row is missing,
modelled as `none`), computes `remaining = commitment - invoiced - accrued` and stores
`accrued_work_done` and `remaining_commitment`; the stored `invoiced_to_date` column is
not updated. -/
def update_po_accrual (s : POState) (po_id : Nat) (accrued_work_done : ℚ) :
    Option POState :=
  let invoiced := pyOr0 (invoiceTotal s.invoices po_id)
  match s.purchase_orders.find? (fun po => po.id == po_id) with
  | none => none
  | some po =>
    let remaining := po.commitment_value - invoiced - accrued_work_done
    some { s with purchase_orders := s.purchase_orders.map (fun p =>
        if p.id == po_id then
          { p with accrued_work_done := accrued_work_done,
                   remaining_commitment := remaining }
        else p) }

/-- The spec's worked commitment example: a PO of commitment 10000 with invoices of
2000 and 3000 recorded against it. -/
def poExample : POState :=
  create_invoice
    (create_invoice
      (create_po ⟨[], []⟩ 1 1 "PO-1" "ACME" "crane hire" "services" 10000)
      1 1 "INV-1" "2025-01-01" 2000)
    2 1 "INV-2" "2025-02-01" 3000

/-- A row of the `timesheets` table (columns the snapshot rollups read). -/
structure TimesheetEntry where
  id : Nat
  project_id : Nat
  date : String
  staff_name : String
  task_name : String
  hours : ℚ
  function : String
  rate : ℚ
  cost : ℚ
  week_ending : String
deriving DecidableEq

/-- A row of the `weekly_snapshots` table. `snapshot_date` holds what
`SnapshotDB.create_snapshot` inserts: `datetime.now().isoformat()`, a full
`YYYY-MM-DDTHH:MM:SS...` timestamp, not a bare calendar date. The serialized
project/deliverable/summary text blobs are omitted: they are serializations of state
modelled elsewhere and no claim reads them. -/
structure Snapshot where
  project_id : Nat
  snapshot_date : String
  week_ending : String
  budget_hours : ℚ
  actual_hours : ℚ
  earned_hours : ℚ
  forecast_to_complete : ℚ
  forecast_at_completion : ℚ
deriving DecidableEq

/-- The calendar day of an ISO timestamp (its first 10 characters, `YYYY-MM-DD`). -/
def isoDay (s : String) : String := String.mk (s.data.take 10)

/-- `SnapshotDB.create_snapshot`: computes the five scalar rollups from the project's
deliverables and timesheets and inserts a row whose `snapshot_date` is the full
timestamp `now`; the insert violates `UNIQUE(project_id, snapshot_date)` — sqlite
raises, modelled as `Except.error` — exactly when an existing row carries the same
project and the identical timestamp string. -/
def create_snapshot (snaps : List Snapshot) (delivs : List Deliverable)
    (ts : List TimesheetEntry) (pid : Nat) (week_ending now : String) :
    Except String (List Snapshot) :=
  if snaps.any (fun sn => sn.project_id == pid && sn.snapshot_date == now) then
    .error "UNIQUE constraint failed: weekly_snapshots.project_id, weekly_snapshots.snapshot_date"
  else
    let rows := delivs.filter (fun d => d.project_id == pid)
    let budget := (rows.map (fun d => d.budget_hours)).sum
    let tsRows := ts.filter (fun t => t.project_id == pid)
    let actual_hours := if tsRows.isEmpty then 0 else (tsRows.map (fun t => t.hours)).sum
    let earned := calculate_earned_value delivs pid
    let ftc := (rows.map (fun d => d.forecast_to_complete)).sum
    .ok (snaps ++
      [{ project_id := pid, snapshot_date := now, week_ending := week_ending,
         budget_hours := budget, actual_hours := actual_hours, earned_hours := earned,
         forecast_to_complete := ftc, forecast_at_completion := actual_hours + ftc }])

/-- `DeliverableDB.create_deliverable`: inserts a row with `physical_progress` 0,
`forecast_to_complete` initialised to the given `budget_hours`, and `status` from
kwargs defaulting to `not_started`; `manual_progress_override` and `earned_hours` are
not in the INSERT column list and take the schema defaults 0 (false). -/
def create_deliverable (delivs : List Deliverable) (id project_id : Nat)
    (name discipline func : String) (budget_hours : ℚ)
    (wbs_code status : Option String) : List Deliverable :=
  delivs ++
    [{ id := id, project_id := project_id, wbs_code := wbs_code.getD "",
       deliverable_name := name, discipline := discipline, function := func,
       budget_hours := budget_hours, status := status.getD "not_started",
       physical_progress := 0, manual_progress_override := false,
       earned_hours := 0, forecast_to_complete := budget_hours }]

/-- A row of the `change_orders` table (the columns the incorporator reads/writes). -/
structure ChangeOrder where
  id : Nat
  project_id : Nat
  co_number : String
  description : String
  change_type : String
  client_billable : Bool
  status : String
  hours_mgmt : ℚ
  hours_eng : ℚ
  hours_draft : ℚ
  incorporated_date : Option String
deriving DecidableEq

/-- Modelled from the spec: the Change-Order Incorporator of §4.4
(`incorporate(co_id, target_deliverable_ids)`) has no implementation under src — the
repository carries only the change_orders schema, its CRUD and its page UI — so the
operation is modelled from the spec's words: `total_hours = hours_mgmt + hours_eng +
hours_draft` is divided evenly across `target_deliverable_ids` (not weighted by
discipline or function) and added to each target's `budget_hours` and
`forecast_to_complete`; the CO's status is set to `incorporated` and
`incorporated_date` stamped. `none` when the CO id is unknown. -/
def incorporate (delivs : List Deliverable) (cos : List ChangeOrder) (co_id : Nat)
    (target_deliverable_ids : List Nat) (now : String) :
    Option (List Deliverable × List ChangeOrder) :=
  match cos.find? (fun co => co.id == co_id) with
  | none => none
  | some co =>
    let total_hours := co.hours_mgmt + co.hours_eng + co.hours_draft
    let share := total_hours / (target_deliverable_ids.length : ℚ)
    some
      (delivs.map (fun d =>
        if d.id ∈ target_deliverable_ids then
          { d with budget_hours := d.budget_hours + share,
                   forecast_to_complete := d.forecast_to_complete + share }
        else d),
       cos.map (fun c =>
        if c.id == co_id then
          { c with status := "incorporated", incorporated_date := some now }
        else c))

/-- Two 100h/200h deliverables, fixture for the spec's incorporation example. -/
def delivsExample : List Deliverable :=
  [⟨1, 1, "W-1", "GA drawing", "ME", "ENGINEERING", 100, "in_progress", 0, false, 0, 50⟩,
   ⟨2, 1, "W-2", "Datasheet", "EE", "ENGINEERING", 200, "in_progress", 0, false, 0, 80⟩]

/-- An approved CO with hours 10/20/0, fixture for the spec's incorporation example. -/
def cosExample : List ChangeOrder :=
  [⟨7, 1, "CO-1", "scope addition", "client_change", true, "approved", 10, 20, 0, none⟩]

/-! ## Theorems -/

theorem strLtB_irrefl (l : List Char) : strLtB l l = false := by
  induction l with
  | nil => rfl
  | cons a l ih => simp [strLtB, ih]

theorem strLtB_cons_iff (x y : Char) (as bs : List Char) :
    strLtB (x :: as) (y :: bs) = true ↔ (x < y ∨ (x = y ∧ strLtB as bs = true)) := by
  simp only [strLtB]
  by_cases hxy : x < y
  · simp [hxy]
  · by_cases hyx : y < x
    · have hne : x ≠ y := fun e => absurd (e ▸ hyx) (lt_irrefl x)
      simp [hxy, hyx, hne]
    · have heq : x = y := le_antisymm (not_lt.mp hyx) (not_lt.mp hxy)
      simp [hxy, hyx, heq]

theorem strLtB_trans {a b c : List Char} (h1 : strLtB a b = true) (h2 : strLtB b c = true) :
    strLtB a c = true := by
  induction a generalizing b c with
  | nil =>
    cases c with
    | nil =>
      cases b with
      | nil => simp [strLtB] at h1
      | cons y bs => simp [strLtB] at h2
    | cons z cs => rfl
  | cons x as ih =>
    cases b with
    | nil => simp [strLtB] at h1
    | cons y bs =>
      cases c with
      | nil => simp [strLtB] at h2
      | cons z cs =>
        rcases (strLtB_cons_iff x y as bs).mp h1 with hxy | ⟨hxy, h1'⟩ <;>
          rcases (strLtB_cons_iff y z bs cs).mp h2 with hyz | ⟨hyz, h2'⟩
        · exact (strLtB_cons_iff x z as cs).mpr (Or.inl (lt_trans hxy hyz))
        · exact (strLtB_cons_iff x z as cs).mpr (Or.inl (by rw [← hyz]; exact hxy))
        · exact (strLtB_cons_iff x z as cs).mpr (Or.inl (by rw [hxy]; exact hyz))
        · exact (strLtB_cons_iff x z as cs).mpr (Or.inr ⟨hxy.trans hyz, ih h1' h2'⟩)

theorem strLtB_eq_of_not {a b : List Char} (h1 : strLtB a b = false)
    (h2 : strLtB b a = false) : a = b := by
  induction a generalizing b with
  | nil =>
    cases b with
    | nil => rfl
    | cons y bs => simp [strLtB] at h1
  | cons x as ih =>
    cases b with
    | nil => simp [strLtB] at h2
    | cons y bs =>
      by_cases hxy : x < y
      · simp [strLtB, hxy] at h1
      · by_cases hyx : y < x
        · simp [strLtB, hyx] at h2
        · have heq : x = y := le_antisymm (not_lt.mp hyx) (not_lt.mp hxy)
          subst heq
          simp only [strLtB, if_neg hxy, if_neg hyx] at h1 h2
          rw [ih h1 h2]

theorem strLe_refl (s : String) : strLe s s = true := by
  simp [strLe, strLt, strLtB_irrefl]

theorem strLt_asymm {s t : String} (h : strLt s t = true) : strLt t s = false := by
  cases hts : strLt t s with
  | false => rfl
  | true =>
    have := strLtB_trans (a := s.data) (b := t.data) (c := s.data) h hts
    rw [strLtB_irrefl] at this
    cases this

theorem strLe_of_strLt {s t : String} (h : strLt s t = true) : strLe s t = true := by
  simp [strLe, strLt_asymm h]

theorem strLt_eq_of_not {s t : String} (h1 : strLt s t = false) (h2 : strLt t s = false) :
    s = t := by
  cases s
  cases t
  exact congrArg String.mk (strLtB_eq_of_not h1 h2)

theorem strLe_trans {a b c : String} (h1 : strLe a b = true) (h2 : strLe b c = true) :
    strLe a c = true := by
  simp only [strLe, Bool.not_eq_true'] at h1 h2 ⊢
  cases hca : strLt c a with
  | false => rfl
  | true =>
    cases hbc : strLt b c with
    | true =>
      have hba : strLt b a = true := strLtB_trans hbc hca
      rw [h1] at hba
      cases hba
    | false =>
      have heq := strLt_eq_of_not h2 hbc
      rw [heq, h1] at hca
      cases hca

theorem earnedCase_eq_spec (d : Deliverable) : earnedCase d = effective_earned_spec d := rfl

theorem pyOr0_sqlSum (xs : List ℚ) : pyOr0 (sqlSum xs) = xs.sum := by
  unfold pyOr0 sqlSum
  by_cases h : xs.isEmpty
  · simp [h, List.isEmpty_iff.mp h]
  · simp [h]

theorem sqlSum_getD (xs : List ℚ) : (sqlSum xs).getD 0 = xs.sum := by
  unfold sqlSum
  by_cases h : xs.isEmpty
  · simp [h, List.isEmpty_iff.mp h]
  · simp [h]

/-- Summing `if k = j then q else 0` over a list that does not contain `k` gives 0. -/
theorem sum_ite_notmem {κ : Type} [DecidableEq κ] (ks : List κ) (k : κ) (q : ℚ)
    (hk : k ∉ ks) : (ks.map (fun j => if k = j then q else 0)).sum = 0 := by
  induction ks with
  | nil => simp
  | cons a ks ih =>
    simp only [List.mem_cons, not_or] at hk
    simp [List.map_cons, List.sum_cons, if_neg hk.1, ih hk.2]

/-- Summing `if k = j then q else 0` over a duplicate-free list containing `k` gives `q`. -/
theorem sum_ite_mem {κ : Type} [DecidableEq κ] (ks : List κ) (k : κ) (q : ℚ)
    (hnd : ks.Nodup) (hk : k ∈ ks) :
    (ks.map (fun j => if k = j then q else 0)).sum = q := by
  induction ks with
  | nil => cases hk
  | cons a ks ih =>
    rcases List.mem_cons.mp hk with h | h
    · subst h
      have hout : k ∉ ks := (List.nodup_cons.mp hnd).1
      simp [List.map_cons, List.sum_cons, sum_ite_notmem ks k q hout]
    · have hna : k ≠ a := by
        intro e
        subst e
        exact (List.nodup_cons.mp hnd).1 h
      simp only [List.map_cons, List.sum_cons, if_neg hna]
      rw [ih (List.nodup_cons.mp hnd).2 h]
      ring

theorem sum_map_add {κ : Type} (ks : List κ) (f g : κ → ℚ) :
    (ks.map (fun k => f k + g k)).sum = (ks.map f).sum + (ks.map g).sum := by
  induction ks with
  | nil => simp
  | cons a ks ih =>
    simp only [List.map_cons, List.sum_cons, ih]
    ring

/-- Grouped sums: summing the per-group `SUM` over any duplicate-free list of keys that
covers every row reproduces the ungrouped sum. -/
theorem fiber_sum {α κ : Type} [DecidableEq κ] (l : List α) (key : α → κ) (v : α → ℚ)
    (ks : List κ) (hnd : ks.Nodup) (hcov : ∀ x ∈ l, key x ∈ ks) :
    (ks.map (fun k => ((l.filter (fun x => key x == k)).map v).sum)).sum
      = (l.map v).sum := by
  induction l with
  | nil => simp
  | cons x l ih =>
    have hx : key x ∈ ks := hcov x (List.mem_cons_self x l)
    have step : ∀ k : κ, (((x :: l).filter (fun y => key y == k)).map v).sum
        = (if key x = k then v x else 0)
          + ((l.filter (fun y => key y == k)).map v).sum := by
      intro k
      by_cases h : key x = k
      · simp [List.filter_cons, h]
      · simp [List.filter_cons, h]
    calc (ks.map (fun k => (((x :: l).filter (fun y => key y == k)).map v).sum)).sum
        = (ks.map (fun k => (if key x = k then v x else 0)
            + ((l.filter (fun y => key y == k)).map v).sum)).sum := by
          exact congrArg List.sum (List.map_congr_left (fun k _ => step k))
      _ = (ks.map (fun k => if key x = k then v x else 0)).sum
            + (ks.map (fun k => ((l.filter (fun y => key y == k)).map v).sum)).sum :=
          sum_map_add ks _ _
      _ = v x + (l.map v).sum := by
          rw [sum_ite_mem ks (key x) (v x) hnd hx,
            ih (fun y hy => hcov y (List.mem_cons_of_mem x hy))]
      _ = ((x :: l).map v).sum := by simp

/-- C1: for every Deliverable, the effective earned hours computed by the earned-value
calculator equal `earned_hours` when `manual_progress_override` is set and
`budget_hours * physical_progress / 100` otherwise, with no clamping of out-of-range
`physical_progress` values, and the code's `CASE` expression agrees with the spec's
`effective_earned` contract. -/
theorem C1_effective_earned (d : Deliverable) :
    (d.manual_progress_override = true → earnedCase d = d.earned_hours) ∧
    (d.manual_progress_override = false →
      earnedCase d = d.budget_hours * d.physical_progress / 100) ∧
    earnedCase d = effective_earned_spec d := by
  refine ⟨fun h => ?_, fun h => ?_, earnedCase_eq_spec d⟩
  · simp [earnedCase, h]
  · simp [earnedCase, h]

/-- Witness for C1 at a concrete deliverable whose physical_progress is 150 (out of
range): the formula propagates it unclamped. -/
theorem C1_effective_earned_witness :
    earnedCase ⟨1, 1, "W-1", "Pump datasheet", "ME", "ENGINEERING", 10, "in_progress",
        150, false, 7, 3⟩ = 10 * 150 / 100 :=
  (C1_effective_earned ⟨1, 1, "W-1", "Pump datasheet", "ME", "ENGINEERING", 10,
    "in_progress", 150, false, 7, 3⟩).2.1 rfl

/-- C2: the aggregate earned hours reported by the engine equal the sum of
`effective_earned` over the project's deliverables; a project with zero deliverables
reports 0 (not an error); and the Budget Aggregator's per-function earned groups sum to
the same total. -/
theorem C2_aggregate_earned (delivs : List Deliverable) (pid : Nat) :
    calculate_earned_value delivs pid
      = ((delivs.filter (fun d => d.project_id == pid)).map effective_earned_spec).sum ∧
    (delivs.filter (fun d => d.project_id == pid) = [] →
      calculate_earned_value delivs pid = 0) ∧
    ((summary_earned delivs pid).map Prod.snd).sum
      = ((delivs.filter (fun d => d.project_id == pid)).map effective_earned_spec).sum := by
  have hcase : ∀ (l : List Deliverable), l.map earnedCase = l.map effective_earned_spec :=
    fun l => List.map_congr_left (fun d _ => earnedCase_eq_spec d)
  refine ⟨?_, fun h => ?_, ?_⟩
  · unfold calculate_earned_value
    by_cases h : (delivs.filter (fun d => d.project_id == pid)).isEmpty
    · simp [h, List.isEmpty_iff.mp h]
    · simp only [h, Bool.false_eq_true, if_false, hcase]
  · unfold calculate_earned_value
    simp [h]
  · unfold summary_earned
    rw [List.map_map]
    have := fiber_sum (delivs.filter (fun d => d.project_id == pid))
      (fun d => d.function) earnedCase
      (((delivs.filter (fun d => d.project_id == pid)).map (fun d => d.function)).dedup)
      (List.nodup_dedup _)
      (fun x hx => List.mem_dedup.mpr (List.mem_map_of_mem _ hx))
    simpa [Function.comp, hcase] using this

/-- Witness for C2: the empty project reports 0 earned hours. -/
theorem C2_aggregate_earned_witness : calculate_earned_value [] 1 = 0 :=
  (C2_aggregate_earned [] 1).2.1 rfl

/-- C3: the forecast reconciliation returns `deliverable_ftc` = sum of
`forecast_to_complete` over the project's deliverables, `manning_ftc` = sum of
`forecast_hours` over the project's manning entries whose `week_ending` is strictly
after the current date, and `variance` = their difference; empty sums resolve to 0, and
`abs(variance)` is classified as requiring reconciliation exactly when it exceeds 20
hours. -/
theorem C3_forecast_reconciliation (delivs : List Deliverable)
    (manning : List ManningForecastEntry) (pid : Nat) (today : String) :
    (get_forecast_reconciliation delivs manning pid today).deliverable_ftc
      = ((delivs.filter (fun d => d.project_id == pid)).map
          (fun d => d.forecast_to_complete)).sum ∧
    (get_forecast_reconciliation delivs manning pid today).manning_ftc
      = ((manning.filter (fun m => m.project_id == pid && strLt today m.week_ending)).map
          (fun m => m.forecast_hours)).sum ∧
    (get_forecast_reconciliation delivs manning pid today).variance
      = (get_forecast_reconciliation delivs manning pid today).deliverable_ftc
        - (get_forecast_reconciliation delivs manning pid today).manning_ftc ∧
    (delivs.filter (fun d => d.project_id == pid) = [] →
      (get_forecast_reconciliation delivs manning pid today).deliverable_ftc = 0) ∧
    (manning.filter (fun m => m.project_id == pid && strLt today m.week_ending) = [] →
      (get_forecast_reconciliation delivs manning pid today).manning_ftc = 0) ∧
    (requires_reconciliation (get_forecast_reconciliation delivs manning pid today) = true
      ↔ 20 < |(get_forecast_reconciliation delivs manning pid today).variance|) ∧
    (requires_reconciliation (get_forecast_reconciliation delivs manning pid today) = false
      ↔ |(get_forecast_reconciliation delivs manning pid today).variance| ≤ 20) := by
  refine ⟨pyOr0_sqlSum _, pyOr0_sqlSum _, rfl, fun h => ?_, fun h => ?_, ?_, ?_⟩
  · exact (pyOr0_sqlSum _).trans (by rw [h]; simp)
  · exact (pyOr0_sqlSum _).trans (by rw [h]; simp)
  · simp [requires_reconciliation]
  · simp [requires_reconciliation]

/-- Witness for C3, mirroring the spec's example: deliverable FTC 500 against manning
FTC 470 gives variance 30, which requires reconciliation, and empty inputs give 0. -/
theorem C3_forecast_reconciliation_witness :
    (get_forecast_reconciliation
      [⟨1, 1, "W-1", "Report", "ME", "ENGINEERING", 600, "in_progress", 0, false, 0, 500⟩]
      [⟨1, 1, "Will Smith", "Lead Engineer", "ME", "ENGINEERING", "2025-06-21", 470, 195,
          91650⟩]
      1 "2025-06-16").variance = 30 ∧
    requires_reconciliation (get_forecast_reconciliation
      [⟨1, 1, "W-1", "Report", "ME", "ENGINEERING", 600, "in_progress", 0, false, 0, 500⟩]
      [⟨1, 1, "Will Smith", "Lead Engineer", "ME", "ENGINEERING", "2025-06-21", 470, 195,
          91650⟩]
      1 "2025-06-16") = true ∧
    (get_forecast_reconciliation [] [] 1 "2025-06-16").deliverable_ftc = 0 := by
  have h := C3_forecast_reconciliation
    [⟨1, 1, "W-1", "Report", "ME", "ENGINEERING", 600, "in_progress", 0, false, 0, 500⟩]
    [⟨1, 1, "Will Smith", "Lead Engineer", "ME", "ENGINEERING", "2025-06-21", 470, 195,
        91650⟩]
    1 "2025-06-16"
  have h0 := C3_forecast_reconciliation
    ([] : List Deliverable) ([] : List ManningForecastEntry) 1 "2025-06-16"
  have hv : (get_forecast_reconciliation
      [⟨1, 1, "W-1", "Report", "ME", "ENGINEERING", 600, "in_progress", 0, false, 0, 500⟩]
      [⟨1, 1, "Will Smith", "Lead Engineer", "ME", "ENGINEERING", "2025-06-21", 470, 195,
          91650⟩]
      1 "2025-06-16").variance = 30 := by
    rw [h.2.2.1, h.1, h.2.1]
    simp [show strLt "2025-06-16" "2025-06-21" = true from by decide]
    norm_num
  refine ⟨hv, h.2.2.2.2.2.1.mpr ?_, h0.2.2.2.1 rfl⟩
  rw [hv]
  norm_num

/-- C8: the week_ending assigned to an imported row is the next Saturday (weekday 5)
strictly after the date — never more than 7 days out, with no Saturday strictly in
between — and a Saturday maps to the Saturday 7 days later; concretely, 2025-06-14
(a Saturday) and 2025-06-16 (a Monday) both map to 2025-06-21. -/
theorem C8_week_ending (d : Int) :
    d < calculate_week_ending d ∧
    calculate_week_ending d ≤ d + 7 ∧
    pyWeekday (calculate_week_ending d) = 5 ∧
    (∀ e : Int, d < e → e < calculate_week_ending d → pyWeekday e ≠ 5) ∧
    (pyWeekday d = 5 → calculate_week_ending d = d + 7) ∧
    pyWeekday (daysFromCivil 2025 6 14) = 5 ∧
    calculate_week_ending (daysFromCivil 2025 6 14) = daysFromCivil 2025 6 21 ∧
    pyWeekday (daysFromCivil 2025 6 16) = 0 ∧
    calculate_week_ending (daysFromCivil 2025 6 16) = daysFromCivil 2025 6 21 := by
  have he : ∀ x : Int, calculate_week_ending x
      = if (5 - (x + 3) % 7) % 7 = 0 then x + 7 else x + (5 - (x + 3) % 7) % 7 := by
    intro x
    simp [calculate_week_ending, pyWeekday]
    split_ifs <;> omega
  refine ⟨?_, ?_, ?_, fun e h1 h2 => ?_, fun h => ?_,
    by decide, by decide, by decide, by decide⟩
  · rw [he]
    split_ifs <;> omega
  · rw [he]
    split_ifs <;> omega
  · unfold pyWeekday
    rw [he]
    split_ifs <;> omega
  · unfold pyWeekday
    rw [he] at h2
    split_ifs at h2 <;> omega
  · unfold pyWeekday at h
    rw [he]
    split_ifs <;> omega

/-- Witness for C8: 2025-06-20 (a Friday, strictly between 2025-06-14 and its week
ending) is not a Saturday, and the Saturday 2025-06-14 rolls a full 7 days. -/
theorem C8_week_ending_witness :
    pyWeekday (daysFromCivil 2025 6 20) ≠ 5 ∧
    calculate_week_ending (daysFromCivil 2025 6 14) = daysFromCivil 2025 6 14 + 7 := by
  have h := C8_week_ending (daysFromCivil 2025 6 14)
  exact ⟨h.2.2.2.1 (daysFromCivil 2025 6 20) (by decide)
      (h.2.2.2.2.2.2.1 ▸ (by decide : daysFromCivil 2025 6 20 < daysFromCivil 2025 6 21)),
    h.2.2.2.2.1 (by decide)⟩

/-- C9: duration parsing is total (it is a Lean function) and never raises: missing
input and the empty string parse to 0, a numeric input parses as its decimal-hours
value, an `HH:MM:SS` string with integer parts parses to `H + M/60 + S/3600`, an
`HH:MM` string to `H + M/60`, a colon-free or over-split string falls back to
`float(s)` with 0 on failure, and a failing integer part parses to 0 rather than
raising; concretely `"02:30:00"` gives 2.5 and `"1:15"` gives 1.25. -/
theorem C9_parse_duration :
    parse_time_to_hours .nan = 0 ∧
    (∀ q : ℚ, parse_time_to_hours (.num q) = q) ∧
    parse_time_to_hours (.str "") = 0 ∧
    (∀ s a b c h m sec, s ≠ "" → pySplit s ':' = [a, b, c] →
      pyInt a = some h → pyInt b = some m → pyInt c = some sec →
      parse_time_to_hours (.str s) = (h : ℚ) + (m : ℚ) / 60 + (sec : ℚ) / 3600) ∧
    (∀ s a b h m, s ≠ "" → pySplit s ':' = [a, b] →
      pyInt a = some h → pyInt b = some m →
      parse_time_to_hours (.str s) = (h : ℚ) + (m : ℚ) / 60) ∧
    (∀ s a b c, s ≠ "" → pySplit s ':' = [a, b, c] →
      pyInt a = none ∨ pyInt b = none ∨ pyInt c = none →
      parse_time_to_hours (.str s) = 0) ∧
    (∀ s a b, s ≠ "" → pySplit s ':' = [a, b] →
      pyInt a = none ∨ pyInt b = none →
      parse_time_to_hours (.str s) = 0) ∧
    (∀ s, s ≠ "" → ((pySplit s ':').length = 1 ∨ 4 ≤ (pySplit s ':').length) →
      parse_time_to_hours (.str s) = (pyFloat s).getD 0) ∧
    parse_time_to_hours (.str "02:30:00") = 5/2 ∧
    parse_time_to_hours (.str "1:15") = 5/4 := by
  refine ⟨rfl, fun q => rfl, rfl, ?_, ?_, ?_, ?_, ?_, ?_, ?_⟩
  · intro s a b c h m sec hs hsplit ha hb hc
    simp only [parse_time_to_hours, if_neg hs, hsplit, ha, hb, hc]
  · intro s a b h m hs hsplit ha hb
    simp only [parse_time_to_hours, if_neg hs, hsplit, ha, hb]
  · intro s a b c hs hsplit hfail
    simp only [parse_time_to_hours, if_neg hs, hsplit]
    rcases ha : pyInt a with _ | h <;> rcases hb : pyInt b with _ | m <;>
      rcases hc : pyInt c with _ | sec <;> simp_all
  · intro s a b hs hsplit hfail
    simp only [parse_time_to_hours, if_neg hs, hsplit]
    rcases ha : pyInt a with _ | h <;> rcases hb : pyInt b with _ | m <;> simp_all
  · intro s hs hlen
    rcases hlen with h1 | h4
    · obtain ⟨a, ha⟩ := List.length_eq_one.mp h1
      simp only [parse_time_to_hours, if_neg hs, ha]
    · rcases hsp : pySplit s ':' with _ | ⟨a, _ | ⟨b, _ | ⟨c, _ | ⟨e, rest⟩⟩⟩⟩ <;>
        (rw [hsp] at h4; simp at h4; try simp only [parse_time_to_hours, if_neg hs, hsp])
  · have hsplit : pySplit "02:30:00" ':' = ["02", "30", "00"] := by decide
    have ha : pyInt "02" = some 2 := by decide
    have hb : pyInt "30" = some 30 := by decide
    simp only [parse_time_to_hours, if_neg (by decide : ("02:30:00" : String) ≠ ""),
      hsplit, ha, hb, (by decide : pyInt "00" = some 0)]
    norm_num
  · have hsplit : pySplit "1:15" ':' = ["1", "15"] := by decide
    simp only [parse_time_to_hours, if_neg (by decide : ("1:15" : String) ≠ ""),
      hsplit, (by decide : pyInt "1" = some 1), (by decide : pyInt "15" = some 15)]
    norm_num

/-- Witness for C9: the concrete spec examples, a malformed string parsing to 0, and a
plain decimal string parsing as decimal hours, all through the theorem. -/
theorem C9_parse_duration_witness :
    parse_time_to_hours (.str "02:30:00") = 5/2 ∧
    parse_time_to_hours (.str "1:xx") = 0 ∧
    parse_time_to_hours (.str "abc") = 0 ∧
    parse_time_to_hours (.str "2.5") = 5/2 ∧
    parse_time_to_hours (.num 8) = 8 := by
  have h := C9_parse_duration
  refine ⟨h.2.2.2.2.2.2.2.2.1, ?_, ?_, ?_, h.2.1 8⟩
  · exact h.2.2.2.2.2.2.1 "1:xx" "1" "xx" (by decide) (by decide) (Or.inr (by decide))
  · exact (h.2.2.2.2.2.2.2.1 "abc" (by decide) (Or.inl (by decide))).trans
      (by rw [show pyFloat "abc" = none from by decide]; rfl)
  · refine (h.2.2.2.2.2.2.2.1 "2.5" (by decide) (Or.inl (by decide))).trans ?_
    have hf : pyFloat "2.5" = some (1 * ((2 : ℚ) + 5 / 10 ^ 1)) := by
      simp [pyFloat, pySign, pyStrip, pySplitChars, digitsToNat]
    rw [hf]
    norm_num

/-- `pickLatest` returns a member of a nonempty list whose `effective_date` is maximal. -/
theorem pickLatest_spec (l : List RateRow) (hne : l ≠ []) :
    ∃ r ∈ l, pickLatest l = some r ∧
      ∀ q ∈ l, strLe q.effective_date r.effective_date = true := by
  induction l with
  | nil => exact absurd rfl hne
  | cons x rs ih =>
    by_cases h : rs = []
    · subst h
      refine ⟨x, List.mem_cons_self x [], rfl, fun q hq => ?_⟩
      rcases List.mem_cons.mp hq with h' | h'
      · subst h'
        exact strLe_refl _
      · cases h'
    · obtain ⟨b, hbmem, hbeq, hbmax⟩ := ih h
      by_cases hlt : strLt x.effective_date b.effective_date = true
      · refine ⟨b, List.mem_cons_of_mem x hbmem, ?_, fun q hq => ?_⟩
        · simp [pickLatest, hbeq, hlt]
        · rcases List.mem_cons.mp hq with h' | h'
          · subst h'
            exact strLe_of_strLt hlt
          · exact hbmax q h'
      · refine ⟨x, List.mem_cons_self x rs, ?_, fun q hq => ?_⟩
        · simp [pickLatest, hbeq, hlt]
        · rcases List.mem_cons.mp hq with h' | h'
          · subst h'
            exact strLe_refl _
          · have hbx : strLe b.effective_date x.effective_date = true := by
              simp [strLe, Bool.eq_false_iff.mpr hlt]
            exact strLe_trans (hbmax q h') hbx

/-- C6: rate resolution filters the rate_schedule rows for the position that are
effective at the as-of date and not yet ended, returns the rate of a match with the
most recent effective_date, and returns the default 170.0 when no row matches. -/
theorem C6_rate_resolution (table : List RateRow) (position as_of_date : String) :
    (∀ r : RateRow, rateMatches position as_of_date r = true ↔
      (r.position = position ∧ strLe r.effective_date as_of_date = true ∧
        (r.end_date = none ∨ ∃ e, r.end_date = some e ∧ strLt as_of_date e = true))) ∧
    (table.filter (rateMatches position as_of_date) = [] →
      get_rate_for_position table position as_of_date = 170) ∧
    (table.filter (rateMatches position as_of_date) ≠ [] →
      ∃ r ∈ table.filter (rateMatches position as_of_date),
        get_rate_for_position table position as_of_date = r.rate ∧
        ∀ q ∈ table.filter (rateMatches position as_of_date),
          strLe q.effective_date r.effective_date = true) := by
  refine ⟨fun r => ?_, fun h => ?_, fun h => ?_⟩
  · unfold rateMatches
    cases he : r.end_date with
    | none => simp [Bool.and_eq_true, beq_iff_eq]
    | some e => simp [Bool.and_eq_true, beq_iff_eq, and_assoc]
  · unfold get_rate_for_position
    rw [h]
    rfl
  · obtain ⟨r, hmem, heq, hmax⟩ := pickLatest_spec _ h
    refine ⟨r, hmem, ?_, hmax⟩
    unfold get_rate_for_position
    rw [heq]

/-- Witness for C6, mirroring the spec's example: with Engineer rated 100 from
2024-01-01 and 120 from 2025-01-01, resolution at 2024-06-01 gives 100, at 2025-06-01
gives 120, and an unknown position falls back to 170. -/
theorem C6_rate_resolution_witness :
    get_rate_for_position
      [⟨1, "Engineer", 100, "2024-01-01", none⟩, ⟨2, "Engineer", 120, "2025-01-01", none⟩]
      "Engineer" "2024-06-01" = 100 ∧
    get_rate_for_position
      [⟨1, "Engineer", 100, "2024-01-01", none⟩, ⟨2, "Engineer", 120, "2025-01-01", none⟩]
      "Engineer" "2025-06-01" = 120 ∧
    get_rate_for_position
      [⟨1, "Engineer", 100, "2024-01-01", none⟩, ⟨2, "Engineer", 120, "2025-01-01", none⟩]
      "Unknown" "2025-06-01" = 170 := by
  refine ⟨by decide, by decide, ?_⟩
  exact (C6_rate_resolution
    [⟨1, "Engineer", 100, "2024-01-01", none⟩, ⟨2, "Engineer", 120, "2025-01-01", none⟩]
    "Unknown" "2025-06-01").2.1 (by decide)

/-- Counterexample for C4 as stated: a PO with commitment 10000 and accrual 1000
(stored remaining 9000) receives an invoice of 2000; `create_invoice` updates
`invoiced_to_date` to 2000 but leaves `remaining_commitment` at 9000, not at
commitment − invoiced − accrued = 7000, so the stored value is stale right after an
invoice-recording operation. -/
theorem C4_counterexample :
    ∃ s', update_po_accrual
        (create_po ⟨[], []⟩ 1 1 "PO-1" "ACME" "crane hire" "services" 10000) 1 1000
        = some s' ∧
      ((create_invoice s' 1 1 "INV-1" "2025-01-01" 2000).purchase_orders.map
        (fun po => (po.invoiced_to_date, po.accrued_work_done, po.remaining_commitment)))
        = [(2000, 1000, 9000)] ∧
      (9000 : ℚ) ≠ 10000 - 2000 - 1000 := by
  refine ⟨_, rfl, ?_, by norm_num⟩
  simp [create_po, create_invoice, update_po_accrual, invoiceTotal, sqlSum, pyOr0]
  norm_num

/-- C4 amended: after `create_invoice` the stored `invoiced_to_date` of the PO equals
the re-aggregated sum of all its invoices' amounts, but `remaining_commitment` is left
unchanged (it is only recomputed by `update_po_accrual`); after `update_po_accrual`
the stored `remaining_commitment` equals commitment_value minus the re-aggregated
invoice sum minus the new accrual, and `accrued_work_done` is the new accrual. -/
theorem C4_amended_commitment_tracking :
    (∀ (s : POState) (id po_id : Nat) (no dt : String) (amt : ℚ),
      ∀ po ∈ (create_invoice s id po_id no dt amt).purchase_orders, po.id = po_id →
        po.invoiced_to_date =
          (((create_invoice s id po_id no dt amt).invoices.filter
            (fun i => i.po_id == po_id)).map (fun i => i.amount)).sum) ∧
    (∀ (s : POState) (id po_id : Nat) (no dt : String) (amt : ℚ),
      (create_invoice s id po_id no dt amt).purchase_orders.map
          (fun p => p.remaining_commitment)
        = s.purchase_orders.map (fun p => p.remaining_commitment)) ∧
    (∀ (s s' : POState) (po_id : Nat) (a c : ℚ),
      update_po_accrual s po_id a = some s' →
      (∀ p ∈ s.purchase_orders, p.id = po_id → p.commitment_value = c) →
      ∀ po ∈ s'.purchase_orders, po.id = po_id →
        po.accrued_work_done = a ∧
        po.remaining_commitment =
          c - ((s.invoices.filter (fun i => i.po_id == po_id)).map (fun i => i.amount)).sum
            - a) := by
  refine ⟨?_, ?_, ?_⟩
  · intro s id po_id no dt amt po hpo hid
    simp only [create_invoice, List.mem_map] at hpo
    obtain ⟨p, hp, hfp⟩ := hpo
    simp only [create_invoice]
    by_cases h : p.id == po_id
    · rw [← hfp]
      simp only [h, if_true]
      exact sqlSum_getD _
    · rw [← hfp] at hid
      simp only [h, Bool.false_eq_true, if_false] at hid
      exact absurd hid (by simpa using h)
  · intro s id po_id no dt amt
    simp only [create_invoice, List.map_map]
    apply List.map_congr_left
    intro p hp
    by_cases h : p.id == po_id <;> simp [Function.comp, h]
  · intro s s' po_id a c hupd hcomm po hpo hid
    unfold update_po_accrual at hupd
    cases hfind : s.purchase_orders.find? (fun po => po.id == po_id) with
    | none =>
      rw [hfind] at hupd
      cases hupd
    | some po0 =>
      rw [hfind] at hupd
      have hc0 : po0.commitment_value = c :=
        hcomm po0 (List.mem_of_find?_eq_some hfind)
          (by simpa using List.find?_some hfind)
      obtain rfl : _ = s' := Option.some.inj hupd
      simp only [List.mem_map] at hpo
      obtain ⟨p, hp, hfp⟩ := hpo
      by_cases h : p.id == po_id
      · rw [← hfp]
        simp [h, hc0, invoiceTotal, pyOr0_sqlSum]
      · rw [← hfp] at hid
        simp only [h, Bool.false_eq_true, if_false] at hid
        exact absurd hid (by simpa using h)

/-- Witness for C4's amended invariants, running the spec's example in the order that
ends with the accrual update: commitment 10000, invoices 2000 and 3000, then accrual
1000 gives accrued 1000, remaining_commitment 4000 and invoiced_to_date 5000. -/
theorem C4_amended_commitment_tracking_witness :
    ∃ s', update_po_accrual poExample 1 1000 = some s' ∧
      ∀ po ∈ s'.purchase_orders, po.id = 1 →
        po.accrued_work_done = 1000 ∧ po.remaining_commitment = 4000 := by
  refine ⟨_, rfl, ?_⟩
  intro po hpo hid
  have h := C4_amended_commitment_tracking.2.2 poExample _ 1 1000 10000 rfl
    (by
      intro p hp hp1
      simp [poExample, create_po, create_invoice, invoiceTotal, sqlSum] at hp
      rw [hp]) po hpo hid
  refine ⟨h.1, ?_⟩
  rw [h.2]
  have hsum : ((poExample.invoices.filter (fun i => i.po_id == 1)).map
      (fun i => i.amount)).sum = 5000 := by
    simp [poExample, create_po, create_invoice]
    norm_num
  rw [hsum]
  norm_num

/-- C7 (code bug): `create_snapshot` stores `datetime.now().isoformat()` — a full
timestamp — as `snapshot_date`, so two calls for the same project on the same calendar
day but at different clock times BOTH succeed and silently leave two rows for that day;
the `UNIQUE(project_id, snapshot_date)` constraint fires only when the timestamp
strings are identical. Evaluated at the failing input 2025-06-16, 09:00 then 10:00. -/
theorem C7_snapshot_same_day :
    ∃ s1 s2,
      create_snapshot [] [] [] 1 "2025-06-21" "2025-06-16T09:00:00" = .ok s1 ∧
      create_snapshot s1 [] [] 1 "2025-06-21" "2025-06-16T10:00:00" = .ok s2 ∧
      (s2.filter (fun sn =>
        sn.project_id == 1 && isoDay sn.snapshot_date == "2025-06-16")).length = 2 ∧
      create_snapshot s1 [] [] 1 "2025-06-21" "2025-06-16T09:00:00"
        = .error "UNIQUE constraint failed: weekly_snapshots.project_id, weekly_snapshots.snapshot_date" := by
  refine ⟨_, _, rfl, rfl, ?_, ?_⟩ <;> rfl

/-- C10: a freshly created deliverable has physical_progress 0, override false,
earned_hours 0, status defaulting to `not_started`, and forecast_to_complete
initialised to the given budget_hours — so it contributes 0 effective earned hours
while contributing its full budget_hours to the project's deliverable-derived FTC sum. -/
theorem C10_create_deliverable (delivs : List Deliverable) (id pid : Nat)
    (name discipline func : String) (budget : ℚ) (wbs st : Option String) :
    ∃ r : Deliverable,
      create_deliverable delivs id pid name discipline func budget wbs st
        = delivs ++ [r] ∧
      r.physical_progress = 0 ∧
      r.manual_progress_override = false ∧
      r.earned_hours = 0 ∧
      r.status = st.getD "not_started" ∧
      (st = none → r.status = "not_started") ∧
      r.forecast_to_complete = budget ∧
      r.project_id = pid ∧
      earnedCase r = 0 ∧
      (((create_deliverable delivs id pid name discipline func budget wbs st).filter
            (fun d => d.project_id == pid)).map (fun d => d.forecast_to_complete)).sum
        = ((delivs.filter (fun d => d.project_id == pid)).map
            (fun d => d.forecast_to_complete)).sum + budget ∧
      calculate_earned_value
          (create_deliverable delivs id pid name discipline func budget wbs st) pid
        = calculate_earned_value delivs pid := by
  refine ⟨{ id := id, project_id := pid, wbs_code := wbs.getD "",
            deliverable_name := name, discipline := discipline, function := func,
            budget_hours := budget, status := st.getD "not_started",
            physical_progress := 0, manual_progress_override := false,
            earned_hours := 0, forecast_to_complete := budget },
    rfl, rfl, rfl, rfl, rfl, fun h => by subst h; rfl, rfl, rfl, ?_, ?_, ?_⟩
  · simp [earnedCase]
  · simp [create_deliverable, List.filter_append, List.sum_append]
  · unfold calculate_earned_value create_deliverable
    by_cases h : delivs.filter (fun d => d.project_id == pid) = []
    · simp [List.filter_append, h, earnedCase]
    · obtain ⟨x, xs, hxx⟩ := List.exists_cons_of_ne_nil h
      simp [List.filter_append, hxx, earnedCase]

/-- Witness for C10: creating a 40-hour deliverable in an empty project yields one row
with status `not_started` (no status supplied), FTC 40, and 0 effective earned hours. -/
theorem C10_create_deliverable_witness :
    ∃ r, create_deliverable [] 1 1 "Datasheet" "ME" "ENGINEERING" 40 none none = [r] ∧
      r.status = "not_started" ∧ r.forecast_to_complete = 40 ∧ earnedCase r = 0 := by
  obtain ⟨r, h1, hprog, hov, hearn, hstatus, hstnone, hftc, hproj, hec, hsum, hcalc⟩ :=
    C10_create_deliverable [] 1 1 "Datasheet" "ME" "ENGINEERING" 40 none none
  exact ⟨r, by simpa using h1, hstnone rfl, hftc, hec⟩

/-- C5 (spec-modelled): incorporating a CO into a non-empty list of targets adds
(hours_mgmt + hours_eng + hours_draft) / (number of targets) to each target
deliverable's budget_hours and forecast_to_complete, leaves non-targets untouched, and
sets the CO's status to incorporated with its date stamped. -/
theorem C5_incorporate (delivs : List Deliverable) (cos : List ChangeOrder)
    (co_id : Nat) (targets : List Nat) (now : String) (co : ChangeOrder)
    (delivs' : List Deliverable) (cos' : List ChangeOrder)
    (hco : cos.find? (fun c => c.id == co_id) = some co)
    (hres : incorporate delivs cos co_id targets now = some (delivs', cos'))
    (_hne : targets ≠ []) :
    (∀ i (hi : i < delivs.length), ∃ hi' : i < delivs'.length,
      (delivs[i].id ∈ targets →
        delivs'[i].budget_hours
          = delivs[i].budget_hours
            + (co.hours_mgmt + co.hours_eng + co.hours_draft) / (targets.length : ℚ) ∧
        delivs'[i].forecast_to_complete
          = delivs[i].forecast_to_complete
            + (co.hours_mgmt + co.hours_eng + co.hours_draft) / (targets.length : ℚ)) ∧
      (delivs[i].id ∉ targets → delivs'[i] = delivs[i])) ∧
    (∀ c ∈ cos', c.id = co_id →
      c.status = "incorporated" ∧ c.incorporated_date = some now) := by
  unfold incorporate at hres
  rw [hco] at hres
  obtain ⟨hd, hc⟩ := Prod.ext_iff.mp (Option.some.inj hres)
  dsimp only at hd hc
  subst hd
  subst hc
  constructor
  · intro i hi
    refine ⟨by simpa using hi, fun hmem => ?_, fun hmem => ?_⟩
    · simp [List.getElem_map, if_pos hmem]
    · simp only [List.getElem_map, if_neg hmem]
  · intro c hc' hid
    obtain ⟨c0, hc0, hfc⟩ := List.mem_map.mp hc'
    by_cases h : c0.id == co_id
    · rw [← hfc]
      simp [h]
    · rw [← hfc] at hid
      simp only [h, Bool.false_eq_true, if_false] at hid
      exact absurd hid (by simpa using h)

/-- Witness for C5, the spec's example: a CO with hours_mgmt 10, hours_eng 20,
hours_draft 0 incorporated into 2 targets adds 15.0 budget_hours and 15.0
forecast_to_complete to each target, and marks the CO incorporated. -/
theorem C5_incorporate_witness :
    ∃ ds cs, incorporate delivsExample cosExample 7 [1, 2] "2025-06-16"
        = some (ds, cs) ∧
      ∃ h0 : 0 < ds.length, ∃ h1 : 1 < ds.length, ∃ hcs : 0 < cs.length,
        ds[0].budget_hours = 115 ∧ ds[0].forecast_to_complete = 65 ∧
        ds[1].budget_hours = 215 ∧ ds[1].forecast_to_complete = 95 ∧
        cs[0].status = "incorporated" ∧ cs[0].incorporated_date = some "2025-06-16" := by
  refine ⟨_, _, rfl, ?_⟩
  have h := C5_incorporate delivsExample cosExample 7 [1, 2] "2025-06-16" _ _ _
    rfl rfl (by decide)
  obtain ⟨h0', hmm0⟩ := h.1 0 (by decide)
  obtain ⟨h1', hmm1⟩ := h.1 1 (by decide)
  refine ⟨h0', h1', by decide, ?_, ?_, ?_, ?_, by decide, by decide⟩
  · rw [(hmm0.1 (by decide)).1]
    show (100 : ℚ) + (10 + 20 + 0) / (2 : ℚ) = 115
    norm_num
  · rw [(hmm0.1 (by decide)).2]
    show (50 : ℚ) + (10 + 20 + 0) / (2 : ℚ) = 65
    norm_num
  · rw [(hmm1.1 (by decide)).1]
    show (200 : ℚ) + (10 + 20 + 0) / (2 : ℚ) = 215
    norm_num
  · rw [(hmm1.1 (by decide)).2]
    show (80 : ℚ) + (10 + 20 + 0) / (2 : ℚ) = 95
    norm_num

end ProManLite
